import Mathlib

/-!
Verification of the vague-finder sentence-similarity package.

The JavaScript module under verification wraps an external sentence-embedding
model.  Its own logic is: compute cosine similarity between two numeric
vectors, iterate a list doing pairwise comparisons while reusing the query
embedding, optionally pre-compute candidate embeddings (getCached), sort by
descending score, and validate cached entries.

Shallow embedding conventions:

* JavaScript numbers are modelled as real numbers (`ℝ`); an embedding vector
  is `List ℝ`.
* The external model is a parameter `EmbedFun : String → Vec`; the module's
  global `model` variable is `Option EmbedFun` (`none` before `loadModel`).
* Thrown exceptions are modelled with `Except JsError`.  The error
  "Model has not been loaded, use vagueFinder.loadModel()" is
  `JsError.modelNotLoaded`; the error "Each item in the cachedArray must have
  a sentenceTwo property" is `JsError.missingSentenceTwo`; a JavaScript
  `TypeError` (calling `null` as a function, spreading `undefined`, reading a
  property of `null`, applying the pipeline to a non-string) is
  `JsError.typeError`.
* A JS value that may be a plain string or a cache-entry object is `Cand`;
  an object property that may be absent (`undefined`) is an `Option`.
* `Array.prototype.sort` with the comparator `(a, b) => b.alike - a.alike`
  is modelled by `List.mergeSort` with the corresponding boolean relation
  (both produce a sorted permutation; V8's sort is also stable).
-/

namespace VagueFinder

/-- An embedding vector: the numeric array the external model produces for one sentence. -/
abbrev Vec := List ℝ

/-- The external embedding provider: `model(text, ...)` resolving to a vector. -/
abbrev EmbedFun := String → Vec

/-- Exceptions the module can throw. -/
inductive JsError where
  /-- "Model has not been loaded, use vagueFinder.loadModel()" -/
  | modelNotLoaded
  /-- "Each item in the cachedArray must have a sentenceTwo property" -/
  | missingSentenceTwo
  /-- A JavaScript `TypeError` (null call, null dereference, spread of undefined, ...). -/
  | typeError
  deriving DecidableEq

/-- A cache-entry object: both properties may be absent (`undefined`). -/
structure CacheEntry where
  sentenceTwo : Option String
  embedding : Option Vec

/-- An element of an input array: a plain string or a cache-entry object. -/
inductive Cand where
  | str (s : String)
  | obj (e : CacheEntry)

/-- JS truthiness of an optional string property: `undefined` and `""` are falsy. -/
def truthyStr : Option String → Bool
  | none => false
  | some s => !(s == "")

/-- The selection `array[i].sentenceTwo ? array[i].sentenceTwo : array[i]`:
a plain string has no `sentenceTwo` property, so the string itself is selected;
an object with a truthy `sentenceTwo` yields that string, otherwise the whole
object flows on. -/
def Cand.selectSentence : Cand → Cand
  | .str s => .str s
  | .obj e => if truthyStr e.sentenceTwo then .str (e.sentenceTwo.getD "") else .obj e

/-- The selection `array[i].embedding ? array[i].embedding : null`: arrays are
always truthy in JS (even `[]`), an absent property is falsy. -/
def Cand.embeddingOrNull : Cand → Option Vec
  | .str _ => none
  | .obj e => e.embedding

/-- One iteration of the accumulator loop inside `calculateCosineSimilarity`:
`dotProduct += e1[i]*e2[i]; magnitude1 += e1[i]*e1[i]; magnitude2 += e2[i]*e2[i]`. -/
noncomputable def cosineStep (embedding1 embedding2 : Vec) (acc : ℝ × ℝ × ℝ) (i : Nat) :
    ℝ × ℝ × ℝ :=
  (acc.1 + embedding1.getD i 0 * embedding2.getD i 0,
   acc.2.1 + embedding1.getD i 0 * embedding1.getD i 0,
   acc.2.2 + embedding2.getD i 0 * embedding2.getD i 0)

/-- The accumulated `(dotProduct, magnitude1, magnitude2)` after the loop
`for (let i = 0; i < embedding1.length; i++)`. -/
noncomputable def cosineAcc (embedding1 embedding2 : Vec) : ℝ × ℝ × ℝ :=
  (List.range embedding1.length).foldl (cosineStep embedding1 embedding2) (0, 0, 0)

/-- The inner helper `calculateCosineSimilarity(embedding1, embedding2)`:
accumulate dot product and squared magnitudes, then return
`dotProduct / (Math.sqrt(magnitude1) * Math.sqrt(magnitude2))`.
The division is unguarded, exactly as in the source. -/
noncomputable def calculateCosineSimilarity (embedding1 embedding2 : Vec) : ℝ :=
  (cosineAcc embedding1 embedding2).1 /
    (Real.sqrt (cosineAcc embedding1 embedding2).2.1 *
      Real.sqrt (cosineAcc embedding1 embedding2).2.2)

/-- Application `await model(x, ...)` of the module-level `model` reference to a value.
Calling a `null` model throws a `TypeError`; applying the external pipeline to a
value that is not a string (an object that leaked through the `sentenceTwo`
selection) also fails in the external code and is modelled as a `TypeError`. -/
def jsEmbed (model : Option EmbedFun) : Cand → Except JsError Vec
  | .str s =>
    match model with
    | none => .error .typeError
    | some m => .ok (m s)
  | .obj _ =>
    match model with
    | none => .error .typeError
    | some _ => .error .typeError

/-- The object returned by `classify`: the two sentences, the similarity score,
and the embedding of the first sentence (for reuse as a cache). -/
structure ClassifyOut where
  sentenceOne : String
  sentenceTwo : Cand
  alike : ℝ
  embedding1Cache : Vec

/-- The `classify` arrow function. Checks `!doesCache2Exist && !model`; obtains
`embedding1` from the cache or the model, then `embedding2` from the cache or
the model, then calls `calculateCosineSimilarity`.  A `null` embedding1 makes
the cosine loop read `null.length` and throw; a `null` embedding2 is only
dereferenced if the loop over `embedding1` runs at least once. -/
noncomputable def classify (model : Option EmbedFun) (sentenceOne : String)
    (sentenceTwo : Cand) (embedding1Cache : Option Vec) (doesCache1Exist : Bool)
    (embedding2Cache : Option Vec) (doesCache2Exist : Bool) :
    Except JsError ClassifyOut :=
  if !doesCache2Exist && model.isNone then .error .modelNotLoaded
  else
    let e1res : Except JsError Vec :=
      if doesCache1Exist then
        match embedding1Cache with
        | some v => .ok v
        | none => .error .typeError
      else jsEmbed model (.str sentenceOne)
    let e2res : Except JsError (Option Vec) :=
      if doesCache2Exist then .ok embedding2Cache
      else (jsEmbed model sentenceTwo).map some
    match e1res, e2res with
    | .error e, _ => .error e
    | .ok _, .error e => .error e
    | .ok e1, .ok (some e2) =>
      .ok ⟨sentenceOne, sentenceTwo, calculateCosineSimilarity e1 e2, e1⟩
    | .ok e1, .ok none =>
      if e1.isEmpty then
        .ok ⟨sentenceOne, sentenceTwo, calculateCosineSimilarity e1 [], e1⟩
      else .error .typeError

/-- One entry of the result array: `\x7b sentenceTwo, alike \x7d`. -/
structure CmpItem where
  sentenceTwo : Cand
  alike : ℝ

/-- The result of the array-comparison operations: `\x7b sentenceOne, array \x7d`. -/
structure CSAOut where
  sentenceOne : String
  array : List CmpItem

/-- The loop of `compareSentenceToArray`: iterates over the (copied) array with
index `i`, calling `classify` with `doesCache1Exist = (i !== 0)` and keeping the
query embedding returned by the first iteration as the cache. -/
noncomputable def csaLoop (model : Option EmbedFun) (sentence : String)
    (doesCache2Exist : Bool) :
    List Cand → Nat → Option Vec → Except JsError (List CmpItem)
  | [], _, _ => .ok []
  | c :: rest, i, cache =>
    match classify model sentence c.selectSentence cache (i != 0)
        c.embeddingOrNull doesCache2Exist with
    | .error e => .error e
    | .ok r =>
      let cache' := if i = 0 then some r.embedding1Cache else cache
      match csaLoop model sentence doesCache2Exist rest (i + 1) cache' with
      | .error e => .error e
      | .ok tail => .ok (⟨r.sentenceTwo, r.alike⟩ :: tail)

/-- The exported `compareSentenceToArray(sentence, array, doesCache2Exist)`.
Checks `!doesCache2Exist && !model`, copies the array, runs the loop. -/
noncomputable def compareSentenceToArray (model : Option EmbedFun) (sentence : String)
    (array : List Cand) (doesCache2Exist : Bool) : Except JsError CSAOut :=
  if !doesCache2Exist && model.isNone then .error .modelNotLoaded
  else
    match csaLoop model sentence doesCache2Exist array 0 none with
    | .error e => .error e
    | .ok items => .ok ⟨sentence, items⟩

/-- The sort comparator `(a, b) => b.alike - a.alike` as a boolean relation:
`a` may stay before `b` iff `b.alike ≤ a.alike` (descending order). -/
noncomputable def descAlike (a b : CmpItem) : Bool := decide (b.alike ≤ a.alike)

/-- The exported `arrayInOrder(sentence, array)`: model check, copy,
`compareSentenceToArray(..., false)`, then an in-place descending sort of the
returned array. -/
noncomputable def arrayInOrder (model : Option EmbedFun) (sentence : String)
    (array : List Cand) : Except JsError CSAOut :=
  if model.isNone then .error .modelNotLoaded
  else
    match compareSentenceToArray model sentence array false with
    | .error e => .error e
    | .ok out => .ok ⟨out.sentenceOne, out.array.mergeSort descAlike⟩

/-- The object returned by `compareTwoSentences`: `alike` is an `Option` because
the source reads it off an unawaited Promise, where it is `undefined`. -/
structure TwoOut where
  sentenceOne : String
  sentenceTwo : String
  alike : Option ℝ

/-- The exported `compareTwoSentences(sentenceOne, sentenceTwo)`.  After the
model check the source runs `const ( alike ) = classify(...)` (object
destructuring): `classify` is `async`, so the expression yields a Promise which
is never awaited, and reading the `alike` property of a Promise object gives
`undefined`, modelled as `none`. -/
def compareTwoSentences (model : Option EmbedFun) (sentenceOne sentenceTwo : String) :
    Except JsError TwoOut :=
  if model.isNone then .error .modelNotLoaded
  else .ok ⟨sentenceOne, sentenceTwo, none⟩

/-- The exported `getCached(array)`: model check, copy, then embed every sentence
and pair it with its text: `returnedArray[i] = ( sentenceTwo: array[i], embedding )`. -/
noncomputable def getCached (model : Option EmbedFun) (array : List String) :
    Except JsError (List CacheEntry) :=
  match model with
  | none => .error .modelNotLoaded
  | some m => .ok (array.map fun s => ⟨some s, some (m s)⟩)

/-- The validation `cachedArray.map(...)` at the top of the cached operations:
for each item in order, `if (!item.sentenceTwo) throw ...`, then the returned
object spreads `[...item.embedding]`, which throws a `TypeError` when the
`embedding` property is absent (`undefined` is not iterable). -/
def validateCachedArray : List CacheEntry → Except JsError Unit
  | [] => .ok ()
  | e :: rest =>
    if truthyStr e.sentenceTwo then
      match e.embedding with
      | none => .error .typeError
      | some _ => validateCachedArray rest
    else .error .missingSentenceTwo

/-- The exported `cachedCompareSentenceToArray(sentence, cachedArray)`: validate
every entry, then `compareSentenceToArray(sentence, cachedArray, true)`.
There is no model check in this function. -/
noncomputable def cachedCompareSentenceToArray (model : Option EmbedFun)
    (sentence : String) (cachedArray : List CacheEntry) : Except JsError CSAOut :=
  match validateCachedArray cachedArray with
  | .error e => .error e
  | .ok _ =>
    match compareSentenceToArray model sentence (cachedArray.map Cand.obj) true with
    | .error e => .error e
    | .ok out => .ok ⟨out.sentenceOne, out.array⟩

/-- The exported `cachedArrayInOrder(sentence, cachedArray)`: validate, compare
with `doesCache2Exist = true`, then sort descending.  No model check. -/
noncomputable def cachedArrayInOrder (model : Option EmbedFun) (sentence : String)
    (cachedArray : List CacheEntry) : Except JsError CSAOut :=
  match validateCachedArray cachedArray with
  | .error e => .error e
  | .ok _ =>
    match compareSentenceToArray model sentence (cachedArray.map Cand.obj) true with
    | .error e => .error e
    | .ok out => .ok ⟨out.sentenceOne, out.array.mergeSort descAlike⟩

/-- Modelled from the spec: the implementation of `getTop(sentence, array,
numberOfResults)` is not under src/ (only the README documents it).  Per the
spec it returns the descending-sorted comparison results limited to the first
`numberOfResults` entries. -/
noncomputable def getTop (model : Option EmbedFun) (sentence : String)
    (array : List Cand) (numberOfResults : Nat) : Except JsError CSAOut :=
  match arrayInOrder model sentence array with
  | .error e => .error e
  | .ok out => .ok ⟨out.sentenceOne, out.array.take numberOfResults⟩

/-! ## Specification-side notions -/

/-- Specification-side dot product of two vectors. -/
noncomputable def dotSpec (a b : Vec) : ℝ := (List.zipWith (fun x y => x * y) a b).sum

/-- Specification-side sum of squares of a vector's entries. -/
noncomputable def sumSq (a : Vec) : ℝ := (a.map fun x => x * x).sum

/-- A candidate is well formed for a given caching mode: in uncached mode a
plain string or an object with a truthy (present, non-empty) sentence text; in
cached mode an object with a truthy sentence text and a present embedding. -/
def Cand.goodFor (doesCache2Exist : Bool) : Cand → Bool
  | .str _ => !doesCache2Exist
  | .obj e => truthyStr e.sentenceTwo && (!doesCache2Exist || e.embedding.isSome)

/-- The sentence text a well-formed candidate denotes. -/
def Cand.selText : Cand → String
  | .str s => s
  | .obj e => e.sentenceTwo.getD ""

/-- The embedding a well-formed candidate is scored with: the pre-computed
vector in cached mode, a fresh embedding of its sentence otherwise. -/
noncomputable def Cand.scoreEmb (doesCache2Exist : Bool) (m : EmbedFun) (c : Cand) : Vec :=
  if doesCache2Exist then c.embeddingOrNull.getD [] else m c.selText

/-! ## Success-path lemmas for the comparison loop -/

theorem selectSentence_of_good (c : Cand) (b : Bool) (h : c.goodFor b = true) :
    c.selectSentence = .str c.selText := by
  cases c with
  | str s => rfl
  | obj e =>
    simp [Cand.goodFor] at h
    simp [Cand.selectSentence, Cand.selText, h.1]

theorem classify_ok (m : EmbedFun) (q : String) (c : Cand) (cache : Option Vec)
    (i : Nat) (dc2 : Bool) (hc : i ≠ 0 → cache = some (m q)) (hg : c.goodFor dc2 = true) :
    classify (some m) q c.selectSentence cache (i != 0) c.embeddingOrNull dc2 =
      .ok ⟨q, .str c.selText, calculateCosineSimilarity (m q) (c.scoreEmb dc2 m), m q⟩ := by
  have hsel := selectSentence_of_good c dc2 hg
  rcases eq_or_ne i 0 with hi | hi
  · subst hi
    cases dc2 with
    | false =>
      simp [classify, hsel, jsEmbed, Cand.scoreEmb, Except.map]
    | true =>
      cases c with
      | str s => simp [Cand.goodFor] at hg
      | obj e =>
        simp [Cand.goodFor] at hg
        obtain ⟨v, hv⟩ := Option.isSome_iff_exists.mp hg.2
        simp [classify, hsel, jsEmbed, Cand.scoreEmb, Cand.embeddingOrNull, hv]
  · have hcache := hc hi
    have hb : (i != 0) = true := by simpa using hi
    cases dc2 with
    | false =>
      simp [classify, hb, hcache, hsel, jsEmbed, Cand.scoreEmb, Except.map]
    | true =>
      cases c with
      | str s => simp [Cand.goodFor] at hg
      | obj e =>
        simp [Cand.goodFor] at hg
        obtain ⟨v, hv⟩ := Option.isSome_iff_exists.mp hg.2
        simp [classify, hb, hcache, hsel, jsEmbed, Cand.scoreEmb, Cand.embeddingOrNull, hv]

theorem csaLoop_ok (m : EmbedFun) (q : String) (dc2 : Bool) (cands : List Cand) :
    ∀ (i : Nat) (cache : Option Vec),
      (∀ c ∈ cands, c.goodFor dc2 = true) →
      (i ≠ 0 → cache = some (m q)) →
      csaLoop (some m) q dc2 cands i cache =
        .ok (cands.map fun c =>
          ⟨.str c.selText, calculateCosineSimilarity (m q) (c.scoreEmb dc2 m)⟩) := by
  induction cands with
  | nil => intro i cache _ _; rfl
  | cons c rest ih =>
    intro i cache hg hc
    have h1 := classify_ok m q c cache i dc2 hc (hg c (by simp))
    have h2 := ih (i + 1) (if i = 0 then some (m q) else cache)
      (fun c' hcm => hg c' (by simp [hcm]))
      (fun _ => by
        rcases eq_or_ne i 0 with hi | hi
        · simp [hi]
        · simp [hi, hc hi])
    simp [csaLoop, h1, h2]

theorem compareSentenceToArray_ok (m : EmbedFun) (q : String) (dc2 : Bool)
    (cands : List Cand) (hg : ∀ c ∈ cands, c.goodFor dc2 = true) :
    compareSentenceToArray (some m) q cands dc2 =
      .ok ⟨q, cands.map fun c =>
        ⟨.str c.selText, calculateCosineSimilarity (m q) (c.scoreEmb dc2 m)⟩⟩ := by
  simp [compareSentenceToArray, csaLoop_ok m q dc2 cands 0 none hg (by simp)]

/-! ## The cosine loop computes dot product and squared norms -/

theorem sumSq_cons (x : ℝ) (xs : Vec) : sumSq (x :: xs) = x * x + sumSq xs := by
  simp [sumSq]

theorem dotSpec_cons (x y : ℝ) (xs ys : Vec) :
    dotSpec (x :: xs) (y :: ys) = x * y + dotSpec xs ys := by
  simp [dotSpec]

theorem cosineAcc_general (a : Vec) : ∀ (b : Vec), a.length = b.length →
    ∀ (init : ℝ × ℝ × ℝ),
      (List.range a.length).foldl (cosineStep a b) init =
        (init.1 + dotSpec a b, init.2.1 + sumSq a, init.2.2 + sumSq b) := by
  induction a with
  | nil =>
    intro b hb init
    cases b with
    | nil => simp [dotSpec, sumSq]
    | cons y ys => simp at hb
  | cons x xs ih =>
    intro b hb init
    cases b with
    | nil => simp at hb
    | cons y ys =>
      have hlen : xs.length = ys.length := by simpa using hb
      rw [List.length_cons, List.range_succ_eq_map, List.foldl_cons, List.foldl_map]
      have hstep : (fun acc i => cosineStep (x :: xs) (y :: ys) acc (Nat.succ i)) =
          cosineStep xs ys := by
        funext acc i
        simp [cosineStep]
      rw [hstep, ih ys hlen]
      simp only [cosineStep, List.getD_cons_zero, dotSpec_cons, sumSq_cons, Prod.mk.injEq]
      refine ⟨by ring, by ring, by ring⟩

theorem cosineAcc_eq (a b : Vec) (h : a.length = b.length) :
    cosineAcc a b = (dotSpec a b, sumSq a, sumSq b) := by
  have hg := cosineAcc_general a b h (0, 0, 0)
  simpa [cosineAcc] using hg

theorem sumSq_nonneg (a : Vec) : 0 ≤ sumSq a := by
  unfold sumSq
  refine List.sum_nonneg ?_
  intro x hx
  obtain ⟨y, -, rfl⟩ := List.mem_map.mp hx
  exact mul_self_nonneg y

theorem sumSq_eq_zero_iff (a : Vec) : sumSq a = 0 ↔ ∀ x ∈ a, x = 0 := by
  induction a with
  | nil => simp [sumSq]
  | cons x xs ih =>
    rw [sumSq_cons, add_eq_zero_iff_of_nonneg (mul_self_nonneg x) (sumSq_nonneg xs),
      mul_self_eq_zero, ih]
    simp

/-! ## Which errors each layer can produce -/

theorem jsEmbed_error (model : Option EmbedFun) (c : Cand) (e : JsError)
    (h : jsEmbed model c = .error e) : e = .typeError := by
  unfold jsEmbed at h
  rcases c with s | ce <;> rcases model with _ | m <;> simp_all

theorem classify_error (model : Option EmbedFun) (q : String) (st : Cand)
    (cache : Option Vec) (b1 : Bool) (e2 : Option Vec) (dc2 : Bool) (e : JsError)
    (h : classify model q st cache b1 e2 dc2 = .error e) :
    e = .modelNotLoaded ∨ e = .typeError := by
  simp only [classify] at h
  split at h
  · simp only [Except.error.injEq] at h
    exact Or.inl h.symm
  · split at h
    · next e' heq =>
      simp only [Except.error.injEq] at h
      subst h
      right
      split at heq
      · split at heq
        · simp at heq
        · simp only [Except.error.injEq] at heq
          exact heq.symm
      · exact jsEmbed_error _ _ _ heq
    · next e' heq =>
      simp only [Except.error.injEq] at h
      subst h
      right
      split at heq
      · simp at heq
      · rcases hj : jsEmbed model st with ej | v
        · rw [hj] at heq
          simp only [Except.map, Except.error.injEq] at heq
          subst heq
          exact jsEmbed_error _ _ _ hj
        · rw [hj] at heq
          simp [Except.map] at heq
    · simp at h
    · split at h
      · simp at h
      · simp only [Except.error.injEq] at h
        exact Or.inr h.symm

theorem csaLoop_error (model : Option EmbedFun) (q : String) (dc2 : Bool)
    (cands : List Cand) :
    ∀ (i : Nat) (cache : Option Vec) (e : JsError),
      csaLoop model q dc2 cands i cache = .error e →
      e = .modelNotLoaded ∨ e = .typeError := by
  induction cands with
  | nil => intro i cache e h; simp [csaLoop] at h
  | cons c rest ih =>
    intro i cache e h
    rw [csaLoop] at h
    split at h
    · next e' heq =>
      simp only [Except.error.injEq] at h
      subst h
      exact classify_error _ _ _ _ _ _ _ _ heq
    · next r heq =>
      split at h
      · simp only [] at h
        split at h
        · next e' heq2 =>
          simp only [Except.error.injEq] at h
          subst h
          exact ih _ _ _ heq2
        · simp at h
      · simp only [] at h
        split at h
        · next e' heq2 =>
          simp only [Except.error.injEq] at h
          subst h
          exact ih _ _ _ heq2
        · simp at h

theorem compareSentenceToArray_error (model : Option EmbedFun) (q : String)
    (cands : List Cand) (dc2 : Bool) (e : JsError)
    (h : compareSentenceToArray model q cands dc2 = .error e) :
    e = .modelNotLoaded ∨ e = .typeError := by
  unfold compareSentenceToArray at h
  split at h
  · simp only [Except.error.injEq] at h
    exact Or.inl h.symm
  · split at h
    · next e' heq =>
      simp only [Except.error.injEq] at h
      subst h
      exact csaLoop_error _ _ _ _ _ _ _ heq
    · simp at h

/-! ## Validation of cached arrays -/

theorem validateCachedArray_ok (arr : List CacheEntry)
    (h : ∀ e ∈ arr, truthyStr e.sentenceTwo = true ∧ e.embedding.isSome = true) :
    validateCachedArray arr = .ok () := by
  induction arr with
  | nil => rfl
  | cons e rest ih =>
    have he := h e (by simp)
    obtain ⟨v, hv⟩ := Option.isSome_iff_exists.mp he.2
    simp [validateCachedArray, he.1, hv, ih (fun e' h' => h e' (by simp [h']))]

theorem validateCachedArray_missing (pre : List CacheEntry) (bad : CacheEntry)
    (post : List CacheEntry)
    (hpre : ∀ e ∈ pre, truthyStr e.sentenceTwo = true ∧ e.embedding.isSome = true)
    (hbad : truthyStr bad.sentenceTwo = false) :
    validateCachedArray (pre ++ bad :: post) = .error .missingSentenceTwo := by
  induction pre with
  | nil => simp [validateCachedArray, hbad]
  | cons e rest ih =>
    have he := hpre e (by simp)
    obtain ⟨v, hv⟩ := Option.isSome_iff_exists.mp he.2
    simp [validateCachedArray, he.1, hv, ih (fun e' h' => hpre e' (by simp [h']))]

theorem validateCachedArray_missing_iff (arr : List CacheEntry) :
    validateCachedArray arr = .error .missingSentenceTwo ↔
      ∃ pre bad post, arr = pre ++ bad :: post ∧
        (∀ e ∈ pre, truthyStr e.sentenceTwo = true ∧ e.embedding.isSome = true) ∧
        truthyStr bad.sentenceTwo = false := by
  constructor
  · induction arr with
    | nil => intro h; simp [validateCachedArray] at h
    | cons e rest ih =>
      intro h
      by_cases ht : truthyStr e.sentenceTwo = true
      · rcases hemb : e.embedding with _ | v
        · simp [validateCachedArray, ht, hemb] at h
        · have hrest : validateCachedArray rest = .error .missingSentenceTwo := by
            simpa [validateCachedArray, ht, hemb] using h
          obtain ⟨pre, bad, post, heq, hpre, hbad⟩ := ih hrest
          refine ⟨e :: pre, bad, post, by simp [heq], ?_, hbad⟩
          intro e' he'
          rcases List.mem_cons.mp he' with rfl | hm
          · exact ⟨ht, by simp [hemb]⟩
          · exact hpre e' hm
      · have ht' : truthyStr e.sentenceTwo = false := by simpa using ht
        exact ⟨[], e, rest, rfl, by simp, ht'⟩
  · rintro ⟨pre, bad, post, rfl, hpre, hbad⟩
    exact validateCachedArray_missing pre bad post hpre hbad

theorem validateCachedArray_typeError_of (pre : List CacheEntry) (bad : CacheEntry)
    (post : List CacheEntry)
    (hpre : ∀ e ∈ pre, truthyStr e.sentenceTwo = true ∧ e.embedding.isSome = true)
    (hbadT : truthyStr bad.sentenceTwo = true) (hbadE : bad.embedding = none) :
    validateCachedArray (pre ++ bad :: post) = .error .typeError := by
  induction pre with
  | nil => simp [validateCachedArray, hbadT, hbadE]
  | cons e rest ih =>
    have he := hpre e (by simp)
    obtain ⟨v, hv⟩ := Option.isSome_iff_exists.mp he.2
    simp [validateCachedArray, he.1, hv, ih (fun e' h' => hpre e' (by simp [h']))]

theorem validateCachedArray_ne_missing (arr : List CacheEntry)
    (h : ∀ e ∈ arr, truthyStr e.sentenceTwo = true) :
    validateCachedArray arr ≠ .error .missingSentenceTwo := by
  induction arr with
  | nil => simp [validateCachedArray]
  | cons e rest ih =>
    have ht := h e (by simp)
    rcases hemb : e.embedding with _ | v
    · simp [validateCachedArray, ht, hemb]
    · have := ih (fun e' h' => h e' (by simp [h']))
      simpa [validateCachedArray, ht, hemb] using this

theorem cachedCompareSentenceToArray_missing_iff (model : Option EmbedFun)
    (q : String) (arr : List CacheEntry) :
    cachedCompareSentenceToArray model q arr = .error .missingSentenceTwo ↔
      validateCachedArray arr = .error .missingSentenceTwo := by
  unfold cachedCompareSentenceToArray
  split
  · next e heq =>
    constructor
    · intro h
      simp only [Except.error.injEq] at h
      rw [heq, h]
    · intro h
      rw [heq] at h
      simp only [Except.error.injEq] at h
      rw [h]
  · next heq =>
    constructor
    · intro h
      split at h
      · next e' heq2 =>
        simp only [Except.error.injEq] at h
        subst h
        rcases compareSentenceToArray_error _ _ _ _ _ heq2 with h' | h' <;> cases h'
      · simp at h
    · intro h
      rw [heq] at h
      simp at h

theorem cachedArrayInOrder_missing_iff (model : Option EmbedFun)
    (q : String) (arr : List CacheEntry) :
    cachedArrayInOrder model q arr = .error .missingSentenceTwo ↔
      validateCachedArray arr = .error .missingSentenceTwo := by
  unfold cachedArrayInOrder
  split
  · next e heq =>
    constructor
    · intro h
      simp only [Except.error.injEq] at h
      rw [heq, h]
    · intro h
      rw [heq] at h
      simp only [Except.error.injEq] at h
      rw [h]
  · next heq =>
    constructor
    · intro h
      split at h
      · next e' heq2 =>
        simp only [Except.error.injEq] at h
        subst h
        rcases compareSentenceToArray_error _ _ _ _ _ heq2 with h' | h' <;> cases h'
      · simp at h
    · intro h
      rw [heq] at h
      simp at h

/-! ## Sorting -/

theorem pairwise_mergeSort_descAlike (l : List CmpItem) :
    (l.mergeSort descAlike).Pairwise (fun a b => b.alike ≤ a.alike) := by
  have htrans : ∀ (a b c : CmpItem), descAlike a b → descAlike b c → descAlike a c := by
    intro a b c hab hbc
    simp only [descAlike, decide_eq_true_eq] at hab hbc ⊢
    exact le_trans hbc hab
  have htotal : ∀ (a b : CmpItem), descAlike a b || descAlike b a := by
    intro a b
    simp only [descAlike]
    rcases le_total b.alike a.alike with h' | h'
    · simp [h']
    · simp [h']
  have h := List.sorted_mergeSort htrans htotal l
  exact h.imp fun hab => by simpa [descAlike] using hab

theorem csaLoop_length (model : Option EmbedFun) (q : String) (dc2 : Bool)
    (cands : List Cand) :
    ∀ (i : Nat) (cache : Option Vec) (items : List CmpItem),
      csaLoop model q dc2 cands i cache = .ok items → items.length = cands.length := by
  induction cands with
  | nil =>
    intro i cache items h
    rw [csaLoop] at h
    simp only [Except.ok.injEq] at h
    simp [← h]
  | cons c rest ih =>
    intro i cache items h
    rw [csaLoop] at h
    split at h
    · simp at h
    · next r heq =>
      split at h
      · simp only [] at h
        split at h
        · simp at h
        · next tail heq2 =>
          simp only [Except.ok.injEq] at h
          simp [← h, ih _ _ _ heq2]
      · simp only [] at h
        split at h
        · simp at h
        · next tail heq2 =>
          simp only [Except.ok.injEq] at h
          simp [← h, ih _ _ _ heq2]

theorem arrayInOrder_ok_inv (model : Option EmbedFun) (q : String) (cands : List Cand)
    (out : CSAOut) (h : arrayInOrder model q cands = .ok out) :
    ∃ items, csaLoop model q false cands 0 none = .ok items ∧
      out.array = items.mergeSort descAlike ∧ items.length = cands.length := by
  unfold arrayInOrder at h
  split at h
  · simp at h
  · split at h
    · simp at h
    · next o heq =>
      unfold compareSentenceToArray at heq
      split at heq
      · simp at heq
      · split at heq
        · simp at heq
        · next items heq2 =>
          simp only [Except.ok.injEq] at heq h
          refine ⟨items, heq2, ?_, csaLoop_length _ _ _ _ _ _ _ heq2⟩
          rw [← h, ← heq]

theorem cachedArrayInOrder_ok_inv (model : Option EmbedFun) (q : String)
    (arr : List CacheEntry) (out : CSAOut)
    (h : cachedArrayInOrder model q arr = .ok out) :
    ∃ items, csaLoop model q true (arr.map Cand.obj) 0 none = .ok items ∧
      out.array = items.mergeSort descAlike ∧ items.length = arr.length := by
  unfold cachedArrayInOrder at h
  split at h
  · simp at h
  · split at h
    · simp at h
    · next o heq =>
      unfold compareSentenceToArray at heq
      split at heq
      · simp at heq
      · split at heq
        · simp at heq
        · next items heq2 =>
          simp only [Except.ok.injEq] at heq h
          refine ⟨items, heq2, ?_, ?_⟩
          · rw [← h, ← heq]
          · have := csaLoop_length _ _ _ _ _ _ _ heq2
            simpa using this

/-! ## Claims -/

/-- C3: for every two equal-length numeric vectors, `calculateCosineSimilarity`
returns the dot product of the vectors divided by the product of their
Euclidean norms. -/
theorem claim3_cosine_formula (a b : Vec) (h : a.length = b.length) :
    calculateCosineSimilarity a b =
      dotSpec a b / (Real.sqrt (sumSq a) * Real.sqrt (sumSq b)) := by
  rw [calculateCosineSimilarity, cosineAcc_eq a b h]

/-- Witness for C3 at concrete vectors of length two. -/
theorem claim3_witness :
    ([(1 : ℝ), 0] : Vec).length = ([(0 : ℝ), 1] : Vec).length ∧
    calculateCosineSimilarity [(1 : ℝ), 0] [(0 : ℝ), 1] =
      dotSpec [(1 : ℝ), 0] [(0 : ℝ), 1] /
        (Real.sqrt (sumSq [(1 : ℝ), 0]) * Real.sqrt (sumSq [(0 : ℝ), 1])) :=
  ⟨rfl, claim3_cosine_formula _ _ rfl⟩

/-- C8: with equal-length vectors the denominator of the unguarded division in
`calculateCosineSimilarity` is zero exactly when one of the vectors is all
zero (in JS float arithmetic the division then yields NaN, the undefined
result), so the well-defined-result branch requires both vectors non-zero;
the second conjunct records that the division is performed unconditionally. -/
theorem claim8_zero_vector_divzero (a b : Vec) (h : a.length = b.length) :
    (Real.sqrt (cosineAcc a b).2.1 * Real.sqrt (cosineAcc a b).2.2 = 0 ↔
      (∀ x ∈ a, x = 0) ∨ (∀ x ∈ b, x = 0)) ∧
    calculateCosineSimilarity a b =
      (cosineAcc a b).1 /
        (Real.sqrt (cosineAcc a b).2.1 * Real.sqrt (cosineAcc a b).2.2) := by
  refine ⟨?_, rfl⟩
  rw [cosineAcc_eq a b h]
  rw [mul_eq_zero, Real.sqrt_eq_zero (sumSq_nonneg a), Real.sqrt_eq_zero (sumSq_nonneg b),
    sumSq_eq_zero_iff, sumSq_eq_zero_iff]

/-- Witness for C8: with a concrete all-zero first vector the denominator of
the division is zero. -/
theorem claim8_witness :
    Real.sqrt (cosineAcc [(0 : ℝ), 0] [(1 : ℝ), 0]).2.1 *
      Real.sqrt (cosineAcc [(0 : ℝ), 0] [(1 : ℝ), 0]).2.2 = 0 :=
  (claim8_zero_vector_divzero [(0 : ℝ), 0] [(1 : ℝ), 0] rfl).1.mpr (Or.inl (by simp))

/-- C9: with the model loaded, `compareTwoSentences` returns an object whose
sentence fields equal the inputs but whose `alike` field is `undefined`
(`none`), because the Promise returned by the async `classify` is destructured
without awaiting it; the second conjunct shows the value `classify` would have
delivered does carry a defined similarity score. -/
theorem claim9_alike_undefined (m : EmbedFun) (s1 s2 : String) :
    compareTwoSentences (some m) s1 s2 = .ok ⟨s1, s2, none⟩ ∧
    classify (some m) s1 (.str s2) none false none false =
      .ok ⟨s1, .str s2, calculateCosineSimilarity (m s1) (m s2), m s1⟩ := by
  constructor
  · rfl
  · simp [classify, jsEmbed, Except.map]

/-- C4 (amended): for well-formed candidates — plain strings in uncached mode,
or cache entries with a non-empty sentence text (and, in cached mode, a present
embedding) — `compareSentenceToArray` returns one result per candidate in input
order, pairing each candidate's sentence with its cosine score against the
query embedding; a candidate not already cached is scored against a fresh
embedding of its sentence (`Cand.scoreEmb` with `doesCache2Exist = false`). -/
theorem claim4_compare_array_spec (m : EmbedFun) (q : String) (dc2 : Bool)
    (cands : List Cand) (hg : ∀ c ∈ cands, c.goodFor dc2 = true) :
    compareSentenceToArray (some m) q cands dc2 =
      .ok ⟨q, cands.map fun c =>
        ⟨.str c.selText, calculateCosineSimilarity (m q) (c.scoreEmb dc2 m)⟩⟩ :=
  compareSentenceToArray_ok m q dc2 cands hg

/-- C4 counterexample: a cache entry whose `sentenceTwo` is the empty string is
JS-falsy, so the selection falls back to the whole entry object and the result
item holds that object, not the entry's sentence text. -/
theorem claim4_counterexample :
    compareSentenceToArray (some fun _ => ([] : Vec)) "q"
        [Cand.obj ⟨some "", some []⟩] true =
      .ok ⟨"q", [⟨Cand.obj ⟨some "", some []⟩, calculateCosineSimilarity [] []⟩]⟩ ∧
    Cand.obj ⟨some "", some []⟩ ≠ Cand.str "" := by
  constructor
  · rfl
  · simp

/-- Witness for C4's amended statement at a concrete candidate list. -/
theorem claim4_witness :
    (∀ c ∈ [Cand.str "b"], c.goodFor false = true) ∧
    compareSentenceToArray (some fun _ => ([] : Vec)) "a" [Cand.str "b"] false =
      .ok ⟨"a", [Cand.str "b"].map fun c =>
        ⟨.str c.selText,
          calculateCosineSimilarity ((fun _ => ([] : Vec)) "a")
            (c.scoreEmb false fun _ => ([] : Vec))⟩⟩ :=
  ⟨by decide, claim4_compare_array_spec (fun _ => ([] : Vec)) "a" false
    [Cand.str "b"] (by decide)⟩

/-- C2 (amended): for a deterministic embedding function and sentences that are
all non-empty, `getCached` followed by `cachedCompareSentenceToArray` yields
exactly the similarity scores of the uncached `compareSentenceToArray`, entry
for entry. -/
theorem claim2_cache_equivalence (m : EmbedFun) (q : String) (sentences : List String)
    (h : ∀ s ∈ sentences, s ≠ "") :
    ∃ (cache : List CacheEntry) (outU outC : CSAOut),
      getCached (some m) sentences = .ok cache ∧
      compareSentenceToArray (some m) q (sentences.map Cand.str) false = .ok outU ∧
      cachedCompareSentenceToArray (some m) q cache = .ok outC ∧
      outC.array.map (fun it => it.alike) = outU.array.map (fun it => it.alike) := by
  have hvalid : validateCachedArray (sentences.map fun s => ⟨some s, some (m s)⟩) = .ok () := by
    apply validateCachedArray_ok
    intro e he
    obtain ⟨s, hs, rfl⟩ := List.mem_map.mp he
    have hne : (s == "") = false := beq_eq_false_iff_ne.mpr (h s hs)
    exact ⟨by simp [truthyStr, hne], rfl⟩
  have hU := compareSentenceToArray_ok m q false (sentences.map Cand.str)
    (by intro c hc; obtain ⟨s, -, rfl⟩ := List.mem_map.mp hc; rfl)
  have hC := compareSentenceToArray_ok m q true
    ((sentences.map fun s => (⟨some s, some (m s)⟩ : CacheEntry)).map Cand.obj)
    (by
      intro c hc
      obtain ⟨e, he, rfl⟩ := List.mem_map.mp hc
      obtain ⟨s, hs, rfl⟩ := List.mem_map.mp he
      have hne : (s == "") = false := beq_eq_false_iff_ne.mpr (h s hs)
      simp [Cand.goodFor, truthyStr, hne])
  refine ⟨sentences.map fun s => ⟨some s, some (m s)⟩,
    ⟨q, (sentences.map Cand.str).map fun c =>
      ⟨.str c.selText, calculateCosineSimilarity (m q) (c.scoreEmb false m)⟩⟩,
    ⟨q, ((sentences.map fun s => (⟨some s, some (m s)⟩ : CacheEntry)).map Cand.obj).map fun c =>
      ⟨.str c.selText, calculateCosineSimilarity (m q) (c.scoreEmb true m)⟩⟩,
    rfl, hU, ?_, ?_⟩
  · simp only [cachedCompareSentenceToArray, hvalid, hC]
  · simp [List.map_map, Function.comp, Cand.scoreEmb, Cand.selText, Cand.embeddingOrNull]

/-- C2 counterexample: with the empty-string sentence the cached pipeline
throws the sentenceTwo validation error while the uncached comparison
succeeds, so the two paths do not agree on every list of sentences. -/
theorem claim2_counterexample :
    getCached (some fun _ => ([] : Vec)) [""] = .ok [⟨some "", some []⟩] ∧
    cachedCompareSentenceToArray (some fun _ => ([] : Vec)) "a" [⟨some "", some []⟩] =
      .error .missingSentenceTwo ∧
    compareSentenceToArray (some fun _ => ([] : Vec)) "a" [Cand.str ""] false =
      .ok ⟨"a", [⟨Cand.str "", calculateCosineSimilarity [] []⟩]⟩ :=
  ⟨rfl, rfl, rfl⟩

/-- Witness for C2's amended statement at a concrete model and sentence list. -/
theorem claim2_witness :
    (∀ s ∈ ["b"], s ≠ "") ∧
    (∃ (cache : List CacheEntry) (outU outC : CSAOut),
      getCached (some fun _ => ([] : Vec)) ["b"] = .ok cache ∧
      compareSentenceToArray (some fun _ => ([] : Vec)) "a" (["b"].map Cand.str) false =
        .ok outU ∧
      cachedCompareSentenceToArray (some fun _ => ([] : Vec)) "a" cache = .ok outC ∧
      outC.array.map (fun it => it.alike) = outU.array.map (fun it => it.alike)) :=
  ⟨by decide, claim2_cache_equivalence (fun _ => ([] : Vec)) "a" ["b"] (by decide)⟩

/-- C5: whenever `arrayInOrder` (respectively `cachedArrayInOrder`) returns a
result, its array is sorted in descending order of the `alike` score: every
element's score is greater than or equal to that of every later element. -/
theorem claim5_sorted_descending (model : Option EmbedFun) (q : String)
    (cands : List Cand) (arr : List CacheEntry) :
    (∀ out, arrayInOrder model q cands = .ok out →
      out.array.Pairwise fun a b => b.alike ≤ a.alike) ∧
    (∀ out, cachedArrayInOrder model q arr = .ok out →
      out.array.Pairwise fun a b => b.alike ≤ a.alike) := by
  constructor
  · intro out h
    obtain ⟨items, -, hsort, -⟩ := arrayInOrder_ok_inv model q cands out h
    rw [hsort]
    exact pairwise_mergeSort_descAlike items
  · intro out h
    obtain ⟨items, -, hsort, -⟩ := cachedArrayInOrder_ok_inv model q arr out h
    rw [hsort]
    exact pairwise_mergeSort_descAlike items

/-- Witness for C5 at concrete inputs on which both sorted operations return. -/
theorem claim5_witness :
    arrayInOrder (some fun _ => ([] : Vec)) "a" [] = .ok ⟨"a", []⟩ ∧
    cachedArrayInOrder (some fun _ => ([] : Vec)) "a" [] = .ok ⟨"a", []⟩ ∧
    List.Pairwise (fun a b : CmpItem => b.alike ≤ a.alike) (CSAOut.mk "a" []).array := by
  have h1 : arrayInOrder (some fun _ => ([] : Vec)) "a" [] = .ok ⟨"a", []⟩ := by
    simp [arrayInOrder, compareSentenceToArray, csaLoop]
  have h2 : cachedArrayInOrder (some fun _ => ([] : Vec)) "a" [] = .ok ⟨"a", []⟩ := by
    simp [cachedArrayInOrder, validateCachedArray, compareSentenceToArray, csaLoop]
  exact ⟨h1, h2,
    (claim5_sorted_descending (some fun _ => ([] : Vec)) "a" [] []).1 ⟨"a", []⟩ h1⟩

/-- C6 (spec-modelled getTop): whenever the descending comparison returns,
`getTop` returns its first `n` entries — exactly `min n (length of the input
list)` entries, the highest-scored ones of the descending-sorted results. -/
theorem claim6_getTop_spec (model : Option EmbedFun) (q : String) (cands : List Cand)
    (n : Nat) (sorted : CSAOut) (h : arrayInOrder model q cands = .ok sorted) :
    getTop model q cands n = .ok ⟨sorted.sentenceOne, sorted.array.take n⟩ ∧
    (sorted.array.take n).length = min n cands.length := by
  constructor
  · unfold getTop
    rw [h]
  · obtain ⟨items, -, hsort, hlen⟩ := arrayInOrder_ok_inv model q cands sorted h
    rw [hsort, List.length_take, List.length_mergeSort, hlen]

/-- Witness for C6 at concrete inputs. -/
theorem claim6_witness :
    arrayInOrder (some fun _ => ([] : Vec)) "a" [] = .ok ⟨"a", []⟩ ∧
    getTop (some fun _ => ([] : Vec)) "a" [] 3 =
      .ok ⟨(CSAOut.mk "a" []).sentenceOne, (CSAOut.mk "a" []).array.take 3⟩ ∧
    ((CSAOut.mk "a" []).array.take 3).length = min 3 ([] : List Cand).length := by
  have h1 : arrayInOrder (some fun _ => ([] : Vec)) "a" [] = .ok ⟨"a", []⟩ := by
    simp [arrayInOrder, compareSentenceToArray, csaLoop]
  have h := claim6_getTop_spec (some fun _ => ([] : Vec)) "a" [] 3 ⟨"a", []⟩ h1
  exact ⟨h1, h.1, h.2⟩

/-- C1 (amended): before `loadModel`, `compareTwoSentences`,
`compareSentenceToArray` (with its default uncached flag), `arrayInOrder` and
`getCached` all throw the dedicated model-not-loaded error; the cached
operations perform no model check: on an empty cached array they succeed, and
on a validated non-empty cached array they throw a `TypeError` from invoking
the `null` model instead of the dedicated error. -/
theorem claim1_amended_preload_errors (s t : String) (cands : List Cand)
    (strs : List String) (ce : CacheEntry) (ces : List CacheEntry)
    (hv : validateCachedArray (ce :: ces) = .ok ()) :
    compareTwoSentences none s t = .error .modelNotLoaded ∧
    compareSentenceToArray none s cands false = .error .modelNotLoaded ∧
    arrayInOrder none s cands = .error .modelNotLoaded ∧
    getCached none strs = .error .modelNotLoaded ∧
    cachedCompareSentenceToArray none s [] = .ok ⟨s, []⟩ ∧
    cachedArrayInOrder none s [] = .ok ⟨s, []⟩ ∧
    cachedCompareSentenceToArray none s (ce :: ces) = .error .typeError ∧
    cachedArrayInOrder none s (ce :: ces) = .error .typeError := by
  refine ⟨rfl, rfl, rfl, rfl, rfl, ?_, ?_, ?_⟩
  · simp [cachedArrayInOrder, validateCachedArray, compareSentenceToArray, csaLoop]
  · simp [cachedCompareSentenceToArray, hv, compareSentenceToArray, csaLoop, classify,
      jsEmbed]
  · simp [cachedArrayInOrder, hv, compareSentenceToArray, csaLoop, classify, jsEmbed]

/-- C1 counterexample: invoking `cachedCompareSentenceToArray` before
`loadModel` on an empty cached array does not fail at all, let alone with the
model-not-loaded error. -/
theorem claim1_counterexample :
    cachedCompareSentenceToArray none "a" [] = .ok ⟨"a", []⟩ := rfl

/-- Witness for C1's amended statement at concrete inputs. -/
theorem claim1_witness :
    validateCachedArray [⟨some "x", some []⟩] = .ok () ∧
    (compareTwoSentences none "a" "b" = .error .modelNotLoaded ∧
    compareSentenceToArray none "a" [] false = .error .modelNotLoaded ∧
    arrayInOrder none "a" [] = .error .modelNotLoaded ∧
    getCached none [] = .error .modelNotLoaded ∧
    cachedCompareSentenceToArray none "a" [] = .ok ⟨"a", []⟩ ∧
    cachedArrayInOrder none "a" [] = .ok ⟨"a", []⟩ ∧
    cachedCompareSentenceToArray none "a" [⟨some "x", some []⟩] = .error .typeError ∧
    cachedArrayInOrder none "a" [⟨some "x", some []⟩] = .error .typeError) :=
  ⟨rfl, claim1_amended_preload_errors "a" "b" [] [] ⟨some "x", some []⟩ [] rfl⟩

/-- C7 (amended): a cached operation throws the dedicated sentenceTwo error
exactly when some entry with a JS-falsy `sentenceTwo` (absent or the empty
string) is preceded only by fully valid entries — in particular an entry can
possess the `sentenceTwo` property (with value `""`) and still trigger the
error; when the first invalid entry instead has a truthy `sentenceTwo` but no
`embedding`, the operation throws a `TypeError` (from spreading `undefined`)
rather than the sentenceTwo error; and whenever every entry has a truthy
`sentenceTwo` — regardless of embeddings — neither cached operation can raise
the sentenceTwo error. -/
theorem claim7_validation_spec (model : Option EmbedFun) (q : String)
    (arr : List CacheEntry) (pre : List CacheEntry) (bad : CacheEntry)
    (post : List CacheEntry)
    (hpre : ∀ e ∈ pre, truthyStr e.sentenceTwo = true ∧ e.embedding.isSome = true)
    (hbadT : truthyStr bad.sentenceTwo = true) (hbadE : bad.embedding = none)
    (harr : ∀ e ∈ arr, truthyStr e.sentenceTwo = true) :
    (∀ a : List CacheEntry,
      (cachedCompareSentenceToArray model q a = .error .missingSentenceTwo ↔
        ∃ p b t, a = p ++ b :: t ∧
          (∀ e ∈ p, truthyStr e.sentenceTwo = true ∧ e.embedding.isSome = true) ∧
          truthyStr b.sentenceTwo = false) ∧
      (cachedArrayInOrder model q a = .error .missingSentenceTwo ↔
        ∃ p b t, a = p ++ b :: t ∧
          (∀ e ∈ p, truthyStr e.sentenceTwo = true ∧ e.embedding.isSome = true) ∧
          truthyStr b.sentenceTwo = false)) ∧
    cachedCompareSentenceToArray model q (pre ++ bad :: post) = .error .typeError ∧
    cachedArrayInOrder model q (pre ++ bad :: post) = .error .typeError ∧
    cachedCompareSentenceToArray model q arr ≠ .error .missingSentenceTwo ∧
    cachedArrayInOrder model q arr ≠ .error .missingSentenceTwo := by
  have hTE := validateCachedArray_typeError_of pre bad post hpre hbadT hbadE
  have hNM := validateCachedArray_ne_missing arr harr
  refine ⟨?_, ?_, ?_, ?_, ?_⟩
  · intro a
    constructor
    · rw [cachedCompareSentenceToArray_missing_iff, validateCachedArray_missing_iff]
    · rw [cachedArrayInOrder_missing_iff, validateCachedArray_missing_iff]
  · simp [cachedCompareSentenceToArray, hTE]
  · simp [cachedArrayInOrder, hTE]
  · intro hcon
    exact hNM ((cachedCompareSentenceToArray_missing_iff model q arr).mp hcon)
  · intro hcon
    exact hNM ((cachedArrayInOrder_missing_iff model q arr).mp hcon)

/-- C7 counterexample: an entry possessing the `sentenceTwo` property with
value `""` still triggers the sentenceTwo error, refuting the claim that the
error occurs only when the property is lacking. -/
theorem claim7_counterexample :
    cachedCompareSentenceToArray (some fun _ => ([] : Vec)) "a"
      [⟨some "", some []⟩] = .error .missingSentenceTwo := rfl

/-- Witness for C7's amended statement at concrete entries: the bad entry has a
truthy sentence but no embedding (TypeError case), and the all-truthy array
also lacks embeddings, exercising the strengthened no-sentenceTwo-error part. -/
theorem claim7_witness :
    (∀ e ∈ ([] : List CacheEntry),
      truthyStr e.sentenceTwo = true ∧ e.embedding.isSome = true) ∧
    truthyStr (CacheEntry.mk (some "z") none).sentenceTwo = true ∧
    (CacheEntry.mk (some "z") none).embedding = none ∧
    (∀ e ∈ [(⟨some "y", none⟩ : CacheEntry)], truthyStr e.sentenceTwo = true) ∧
    ((∀ a : List CacheEntry,
      (cachedCompareSentenceToArray none "w" a = .error .missingSentenceTwo ↔
        ∃ p b t, a = p ++ b :: t ∧
          (∀ e ∈ p, truthyStr e.sentenceTwo = true ∧ e.embedding.isSome = true) ∧
          truthyStr b.sentenceTwo = false) ∧
      (cachedArrayInOrder none "w" a = .error .missingSentenceTwo ↔
        ∃ p b t, a = p ++ b :: t ∧
          (∀ e ∈ p, truthyStr e.sentenceTwo = true ∧ e.embedding.isSome = true) ∧
          truthyStr b.sentenceTwo = false)) ∧
    cachedCompareSentenceToArray none "w"
      ([] ++ (⟨some "z", none⟩ : CacheEntry) :: []) = .error .typeError ∧
    cachedArrayInOrder none "w"
      ([] ++ (⟨some "z", none⟩ : CacheEntry) :: []) = .error .typeError ∧
    cachedCompareSentenceToArray none "w" [(⟨some "y", none⟩ : CacheEntry)] ≠
      .error .missingSentenceTwo ∧
    cachedArrayInOrder none "w" [(⟨some "y", none⟩ : CacheEntry)] ≠
      .error .missingSentenceTwo) :=
  ⟨by decide, by decide, rfl, by decide,
    claim7_validation_spec none "w" [⟨some "y", none⟩] [] ⟨some "z", none⟩ []
      (by decide) (by decide) rfl (by decide)⟩

/-! ## A heap model for the frame claim

JavaScript arrays are mutable objects, so "the caller's input array is
unchanged" is a statement about the heap.  Here the array-handling skeleton of
each operation is re-rendered over an explicit heap: arrays live in numbered
cells, the copy `[...array]` allocates a fresh cell, element assignment and the
in-place sort write to a cell.  The per-element computation reuses `classify`
and `validateCachedArray` from the functional model above. -/

/-- A heap of JS arrays: cell `r` holds the array at reference `r`. -/
structure Heap (α : Type) where
  cells : List (List α)

/-- Read the array at a reference (a dangling reference reads as `[]`). -/
def Heap.read {α : Type} (h : Heap α) (r : Nat) : List α := h.cells.getD r []

/-- Overwrite the array at a reference. -/
def Heap.write {α : Type} (h : Heap α) (r : Nat) (v : List α) : Heap α :=
  ⟨h.cells.set r v⟩

/-- Allocate a fresh array, returning the new heap and the fresh reference. -/
def Heap.alloc {α : Type} (h : Heap α) (v : List α) : Heap α × Nat :=
  (⟨h.cells ++ [v]⟩, h.cells.length)

theorem Heap.read_write_ne {α : Type} (h : Heap α) (r r' : Nat) (v : List α)
    (hne : r' ≠ r) : (h.write r v).read r' = h.read r' := by
  simp [Heap.read, Heap.write, List.getD_eq_getElem?_getD,
    List.getElem?_set_ne (by omega : r ≠ r')]

theorem Heap.length_write {α : Type} (h : Heap α) (r : Nat) (v : List α) :
    (h.write r v).cells.length = h.cells.length := by
  simp [Heap.write]

theorem Heap.read_write_self_of_lt {α : Type} (h : Heap α) (r : Nat) (v : List α)
    (hr : r < h.cells.length) : (h.write r v).read r = v := by
  simp [Heap.read, Heap.write, List.getD_eq_getElem?_getD,
    List.getElem?_set_self hr]

theorem Heap.read_alloc_old {α : Type} (h : Heap α) (v : List α) (r : Nat)
    (hr : r < h.cells.length) : (h.alloc v).1.read r = h.read r := by
  simp [Heap.read, Heap.alloc, List.getD_eq_getElem?_getD,
    List.getElem?_append_left hr]

theorem Heap.alloc_ref {α : Type} (h : Heap α) (v : List α) :
    (h.alloc v).2 = h.cells.length := rfl

theorem Heap.length_alloc {α : Type} (h : Heap α) (v : List α) :
    (h.alloc v).1.cells.length = h.cells.length + 1 := by
  simp [Heap.alloc]

theorem Heap.lt_of_read_ne_nil {α : Type} (h : Heap α) (r : Nat)
    (hne : h.read r ≠ []) : r < h.cells.length := by
  by_contra hcon
  push_neg at hcon
  apply hne
  simp [Heap.read, List.getD_eq_getElem?_getD, List.getElem?_eq_none hcon]

/-- A value stored in an array cell during the comparison loop: initially the
input candidate, overwritten index by index with the comparison item. -/
inductive HVal where
  | cand (c : Cand)
  | item (it : CmpItem)

/-- Read a cell value as an input candidate.  The loop reads index `i` strictly
before writing it, and input arrays hold candidates, so the `item` case is
never read back; it is mapped to a fixed default. -/
def HVal.asCand : HVal → Cand
  | .cand c => c
  | .item _ => .str ""

/-- Read a cell value as a cache entry for validation.  A plain string has
neither property; the `item` case does not occur in input arrays and is mapped
to the entry with no properties. -/
def HVal.asEntry : HVal → CacheEntry
  | .cand (.str _) => ⟨none, none⟩
  | .cand (.obj e) => e
  | .item _ => ⟨none, none⟩

/-- The `alike` property read by the sort comparator; after the loop every cell
holds an item, so the `cand` case is never compared and gets a fixed default. -/
noncomputable def HVal.alikeD : HVal → ℝ
  | .cand _ => 0
  | .item it => it.alike

/-- The sort comparator `(a, b) => b.alike - a.alike` over cell values. -/
noncomputable def descAlikeH (a b : HVal) : Bool := decide (b.alikeD ≤ a.alikeD)

/-- The loop of `compareSentenceToArray` over the heap: while `i` is below the
array's length, read `array[i]`, call `classify`, assign
`array[i] = ( sentenceTwo, alike )`, and continue with `i + 1`. -/
noncomputable def csaLoopH (model : Option EmbedFun) (sentence : String) (dc2 : Bool)
    (h : Heap HVal) (rc : Nat) (i : Nat) (cache : Option Vec) :
    Heap HVal × Except JsError Unit :=
  if hlt : i < (h.read rc).length then
    let c := ((h.read rc).getD i (.cand (.str ""))).asCand
    match classify model sentence c.selectSentence cache (i != 0)
        c.embeddingOrNull dc2 with
    | .error e => (h, .error e)
    | .ok r =>
      let cache' := if i = 0 then some r.embedding1Cache else cache
      let h' := h.write rc ((h.read rc).set i (.item ⟨r.sentenceTwo, r.alike⟩))
      csaLoopH model sentence dc2 h' rc (i + 1) cache'
  else (h, .ok ())
termination_by (h.read rc).length - i
decreasing_by
  have hr : rc < h.cells.length := by
    apply Heap.lt_of_read_ne_nil
    intro hnil
    rw [hnil] at hlt
    simp at hlt
  have hlen :
      ((h.write rc ((h.read rc).set i (.item ⟨r.sentenceTwo, r.alike⟩))).read rc).length =
        (h.read rc).length := by
    rw [Heap.read_write_self_of_lt h rc _ hr, List.length_set]
  simp only [hlen]
  omega

/-- The heap rendering of `compareSentenceToArray`: the model check, then the
copy `array = [...array]` (a fresh allocation), then the loop on the copy. -/
noncomputable def compareSentenceToArrayH (model : Option EmbedFun) (sentence : String)
    (dc2 : Bool) (h : Heap HVal) (r : Nat) :
    Heap HVal × Except JsError (String × Nat) :=
  if !dc2 && model.isNone then (h, .error .modelNotLoaded)
  else
    let p := h.alloc (h.read r)
    match csaLoopH model sentence dc2 p.1 p.2 0 none with
    | (h2, .error e) => (h2, .error e)
    | (h2, .ok _) => (h2, .ok (sentence, p.2))

/-- The heap rendering of `arrayInOrder`: model check, its own copy of the
input, `compareSentenceToArray`, then `returnedArray.sort(...)` — an in-place
write of the sorted contents to the returned (copied) array, never to the
caller's array. -/
noncomputable def arrayInOrderH (model : Option EmbedFun) (sentence : String)
    (h : Heap HVal) (r : Nat) : Heap HVal × Except JsError (String × Nat) :=
  if model.isNone then (h, .error .modelNotLoaded)
  else
    let p := h.alloc (h.read r)
    match compareSentenceToArrayH model sentence false p.1 p.2 with
    | (h2, .error e) => (h2, .error e)
    | (h2, .ok (s, rc)) =>
      (h2.write rc ((h2.read rc).mergeSort descAlikeH), .ok (s, rc))

/-- The heap rendering of `getCached`: model check, copy of the input, then a
fresh `returnedArray` built from the copied sentences; the caller's array is
never written. -/
noncomputable def getCachedH (model : Option EmbedFun) (h : Heap HVal) (r : Nat) :
    Heap HVal × Except JsError Nat :=
  match model with
  | none => (h, .error .modelNotLoaded)
  | some m =>
    let p := h.alloc (h.read r)
    let q := p.1.alloc ((p.1.read p.2).map fun v =>
      HVal.cand (.obj ⟨some v.asCand.selText, some (m v.asCand.selText)⟩))
    (q.1, .ok q.2)

/-- The heap rendering of `cachedCompareSentenceToArray`: validation of the
entries, then `compareSentenceToArray(..., true)` on the same reference (this
function makes no copy of its own; the inner copy protects the caller). -/
noncomputable def cachedCompareSentenceToArrayH (model : Option EmbedFun)
    (sentence : String) (h : Heap HVal) (r : Nat) :
    Heap HVal × Except JsError (String × Nat) :=
  match validateCachedArray ((h.read r).map HVal.asEntry) with
  | .error e => (h, .error e)
  | .ok _ => compareSentenceToArrayH model sentence true h r

/-- The heap rendering of `cachedArrayInOrder`: validation, comparison in
cached mode, then the in-place sort of the returned (copied) array. -/
noncomputable def cachedArrayInOrderH (model : Option EmbedFun) (sentence : String)
    (h : Heap HVal) (r : Nat) : Heap HVal × Except JsError (String × Nat) :=
  match validateCachedArray ((h.read r).map HVal.asEntry) with
  | .error e => (h, .error e)
  | .ok _ =>
    match compareSentenceToArrayH model sentence true h r with
    | (h2, .error e) => (h2, .error e)
    | (h2, .ok (s, rc)) =>
      (h2.write rc ((h2.read rc).mergeSort descAlikeH), .ok (s, rc))

theorem csaLoopH_frame (model : Option EmbedFun) (q : String) (dc2 : Bool) :
    ∀ (n : Nat) (h : Heap HVal) (rc i : Nat) (cache : Option Vec) (r : Nat),
      (h.read rc).length - i ≤ n → r ≠ rc →
      ((csaLoopH model q dc2 h rc i cache).1).read r = h.read r ∧
      ((csaLoopH model q dc2 h rc i cache).1).cells.length = h.cells.length := by
  intro n
  induction n with
  | zero =>
    intro h rc i cache r hn hne
    have hge : ¬ i < (h.read rc).length := by omega
    rw [csaLoopH]
    simp [hge]
  | succ n ih =>
    intro h rc i cache r hn hne
    rw [csaLoopH]
    by_cases hlt : i < (h.read rc).length
    · simp only [hlt, dite_true]
      rcases hcl : classify model q
          (((h.read rc).getD i (.cand (.str ""))).asCand).selectSentence cache (i != 0)
          (((h.read rc).getD i (.cand (.str ""))).asCand).embeddingOrNull dc2 with e | rr
      · simp [hcl]
      · simp only [hcl]
        have hr : rc < h.cells.length := by
          apply Heap.lt_of_read_ne_nil
          intro hnil
          rw [hnil] at hlt
          simp at hlt
        have hlen :
            ((h.write rc ((h.read rc).set i
              (.item ⟨rr.sentenceTwo, rr.alike⟩))).read rc).length =
              (h.read rc).length := by
          rw [Heap.read_write_self_of_lt h rc _ hr, List.length_set]
        have hrec := ih (h.write rc ((h.read rc).set i (.item ⟨rr.sentenceTwo, rr.alike⟩)))
          rc (i + 1) (if i = 0 then some rr.embedding1Cache else cache) r
          (by rw [hlen]; omega) hne
        refine ⟨?_, ?_⟩
        · rw [hrec.1, Heap.read_write_ne h rc r _ hne]
        · rw [hrec.2, Heap.length_write]
    · simp [hlt]

theorem csaLoopH_frame' (model : Option EmbedFun) (q : String) (dc2 : Bool)
    (h : Heap HVal) (rc i : Nat) (cache : Option Vec) (r : Nat) (hne : r ≠ rc) :
    ((csaLoopH model q dc2 h rc i cache).1).read r = h.read r ∧
    ((csaLoopH model q dc2 h rc i cache).1).cells.length = h.cells.length :=
  csaLoopH_frame model q dc2 ((h.read rc).length - i) h rc i cache r le_rfl hne

theorem compareSentenceToArrayH_frame (model : Option EmbedFun) (q : String)
    (dc2 : Bool) (h : Heap HVal) (r r' : Nat) (hr' : r' < h.cells.length) :
    ((compareSentenceToArrayH model q dc2 h r).1).read r' = h.read r' ∧
    h.cells.length ≤ ((compareSentenceToArrayH model q dc2 h r).1).cells.length ∧
    (∀ s rc, (compareSentenceToArrayH model q dc2 h r).2 = .ok (s, rc) →
      rc = h.cells.length) := by
  unfold compareSentenceToArrayH
  split
  · exact ⟨rfl, le_refl _, by intro s rc hc; simp at hc⟩
  · rcases hres : csaLoopH model q dc2 (h.alloc (h.read r)).1 (h.alloc (h.read r)).2
        0 none with ⟨h2, res⟩
    have hfr := csaLoopH_frame' model q dc2 (h.alloc (h.read r)).1
      (h.alloc (h.read r)).2 0 none r' (by rw [Heap.alloc_ref]; omega)
    rw [hres] at hfr
    have hread : h2.read r' = h.read r' := by
      rw [hfr.1, Heap.read_alloc_old h _ r' hr']
    have hlen : h2.cells.length = h.cells.length + 1 := by
      rw [hfr.2, Heap.length_alloc]
    cases res with
    | error e =>
      simp only [hres]
      exact ⟨hread, by omega, by intro s rc hc; simp at hc⟩
    | ok u =>
      simp only [hres]
      refine ⟨hread, by omega, ?_⟩
      intro s rc hc
      simp only [Except.ok.injEq, Prod.mk.injEq] at hc
      rw [← hc.2, Heap.alloc_ref]

/-- C10: each of the five array operations leaves the caller's input array
unchanged — after the call, the reference passed in still holds the same
elements in the same order.  Every operation works on a freshly allocated
shallow copy, and the sorted variants sort only the copied result array. -/
theorem claim10_inputs_unchanged (model : Option EmbedFun) (q : String) (dc2 : Bool)
    (h : Heap HVal) (r : Nat) (hr : r < h.cells.length) :
    ((compareSentenceToArrayH model q dc2 h r).1).read r = h.read r ∧
    ((arrayInOrderH model q h r).1).read r = h.read r ∧
    ((getCachedH model h r).1).read r = h.read r ∧
    ((cachedCompareSentenceToArrayH model q h r).1).read r = h.read r ∧
    ((cachedArrayInOrderH model q h r).1).read r = h.read r := by
  refine ⟨(compareSentenceToArrayH_frame model q dc2 h r r hr).1, ?_, ?_, ?_, ?_⟩
  · unfold arrayInOrderH
    split
    · rfl
    · rcases hres : compareSentenceToArrayH model q false (h.alloc (h.read r)).1
          (h.alloc (h.read r)).2 with ⟨h2, res⟩
      have hfr := compareSentenceToArrayH_frame model q false (h.alloc (h.read r)).1
        (h.alloc (h.read r)).2 r (by rw [Heap.length_alloc]; omega)
      rw [hres] at hfr
      have hread : h2.read r = h.read r := by
        rw [hfr.1, Heap.read_alloc_old h _ r hr]
      cases res with
      | error e => simpa only [hres] using hread
      | ok u =>
        rcases u with ⟨s, rc⟩
        have hrc : rc = (h.alloc (h.read r)).1.cells.length := hfr.2.2 s rc rfl
        have hrne : r ≠ rc := by
          rw [hrc, Heap.length_alloc]
          omega
        simp only [hres]
        rw [Heap.read_write_ne _ _ _ _ hrne, hread]
  · unfold getCachedH
    cases model with
    | none => rfl
    | some m =>
      simp only []
      rw [Heap.read_alloc_old _ _ r (by rw [Heap.length_alloc]; omega),
        Heap.read_alloc_old h _ r hr]
  · unfold cachedCompareSentenceToArrayH
    split
    · rfl
    · exact (compareSentenceToArrayH_frame model q true h r r hr).1
  · unfold cachedArrayInOrderH
    split
    · rfl
    · rcases hres : compareSentenceToArrayH model q true h r with ⟨h2, res⟩
      have hfr := compareSentenceToArrayH_frame model q true h r r hr
      rw [hres] at hfr
      cases res with
      | error e => simpa only [hres] using hfr.1
      | ok u =>
        rcases u with ⟨s, rc⟩
        have hrc : rc = h.cells.length := hfr.2.2 s rc rfl
        have hrne : r ≠ rc := by omega
        simp only [hres]
        rw [Heap.read_write_ne _ _ _ _ hrne, hfr.1]

/-- Witness for C10 at a concrete one-cell heap. -/
theorem claim10_witness :
    0 < (Heap.mk [[HVal.cand (Cand.str "b")]] : Heap HVal).cells.length ∧
    ((cachedCompareSentenceToArrayH none "a"
        (Heap.mk [[HVal.cand (Cand.str "b")]]) 0).1).read 0 =
      (Heap.mk [[HVal.cand (Cand.str "b")]] : Heap HVal).read 0 :=
  ⟨by decide,
    (claim10_inputs_unchanged none "a" false
      (Heap.mk [[HVal.cand (Cand.str "b")]]) 0 (by decide)).2.2.2.1⟩

end VagueFinder
